import Mathlib

/- Verification development for the todoist-ai repository: a shallow
   embedding of its filter-query construction, responsible-user resolution,
   pagination walking, date-window widening and response shaping, together
   with theorems checking the specification document against it. -/

namespace Todoist

/-! ### Calendar arithmetic

Shallow embedding of the date handling used by the tools: the proleptic
Gregorian day arithmetic behind date-fns addDays / formatISO (the process
runs with a UTC clock; an ISO "YYYY-MM-DD" string parses to midnight and
addDays performs calendar-day addition) and the JS Date ISO parser and
toISOString serializer used by find-completed-tasks. -/

def digitVal (c : Char) : Nat := c.toNat - 48

def isLeapYear (y : Nat) : Bool :=
  (y % 4 == 0 && y % 100 != 0) || y % 400 == 0

def daysInMonth (y m : Nat) : Nat :=
  if m = 2 then (if isLeapYear y then 29 else 28)
  else if m = 4 ∨ m = 6 ∨ m = 9 ∨ m = 11 then 30
  else 31

/-- Reads a "YYYY-MM-DD" character list into a (year, month, day) triple,
rejecting anything that is not a real calendar date (the JS ISO date parser
rejects out-of-range components with an invalid-date result). -/
def readDate (cs : List Char) : Option (Nat × Nat × Nat) :=
  match cs with
  | [c1, c2, c3, c4, s1, c5, c6, s2, c7, c8] =>
    if c1.isDigit && c2.isDigit && c3.isDigit && c4.isDigit && s1 == '-' &&
       c5.isDigit && c6.isDigit && s2 == '-' && c7.isDigit && c8.isDigit then
      let y := digitVal c1 * 1000 + digitVal c2 * 100 + digitVal c3 * 10 + digitVal c4
      let m := digitVal c5 * 10 + digitVal c6
      let d := digitVal c7 * 10 + digitVal c8
      if 1 ≤ m && m ≤ 12 && 1 ≤ d && d ≤ daysInMonth y m then some (y, m, d) else none
    else none
  | _ => none

/-- Days since 1970-01-01 of a civil (proleptic Gregorian) date. -/
def daysFromCivil (y m d : Int) : Int :=
  let y' := if m ≤ 2 then y - 1 else y
  let era := y'.fdiv 400
  let yoe := y' - era * 400
  let mp := (m + 9).fmod 12
  let doy := (153 * mp + 2).fdiv 5 + d - 1
  let doe := yoe * 365 + yoe.fdiv 4 - yoe.fdiv 100 + doy
  era * 146097 + doe - 719468

/-- Civil (proleptic Gregorian) date of a days-since-epoch count. -/
def civilFromDays (z0 : Int) : Int × Int × Int :=
  let z := z0 + 719468
  let era := z.fdiv 146097
  let doe := z - era * 146097
  let yoe := (doe - doe.fdiv 1460 + doe.fdiv 36524 - doe.fdiv 146096).fdiv 365
  let y := yoe + era * 400
  let doy := doe - (365 * yoe + yoe.fdiv 4 - yoe.fdiv 100)
  let mp := (5 * doy + 2).fdiv 153
  let d := doy - (153 * mp + 2).fdiv 5 + 1
  let m := mp + (if mp < 10 then 3 else -9)
  (if m ≤ 2 then y + 1 else y, m, d)

/-- Decimal digits of a natural number (fuel-based helper). -/
def natToCharsAux : Nat → Nat → List Char
  | 0, _ => []
  | _ + 1, 0 => []
  | fuel + 1, n => natToCharsAux fuel (n / 10) ++ [Nat.digitChar (n % 10)]

def natToChars (n : Nat) : List Char :=
  if n = 0 then ['0'] else natToCharsAux n n

/-- Zero-pads a natural number to a given width, as the ISO formatters do. -/
def padNum (w n : Nat) : String :=
  ⟨List.replicate (w - (natToChars n).length) '0' ++ natToChars n⟩

/-- Formats a days-since-epoch count as "YYYY-MM-DD" (date-fns formatISO with
the date representation). -/
def formatIsoDate (z : Int) : String :=
  let c := civilFromDays z
  padNum 4 c.1.toNat ++ "-" ++ padNum 2 c.2.1.toNat ++ "-" ++ padNum 2 c.2.2.toNat

/-- date-fns addDays on an ISO "YYYY-MM-DD" string followed by formatISO:
calendar-day addition. Returns none when the string is not a real date
(date-fns would raise an invalid-time-value error there). -/
def addDaysIso (s : String) (n : Nat) : Option String :=
  (readDate s.data).map fun v => formatIsoDate (daysFromCivil v.1 v.2.1 v.2.2 + n)

/-- Reads the "Thh:mm:ss" block of an ISO date-time into seconds-of-day. -/
def readTimeT (cs : List Char) : Option Nat :=
  match cs with
  | ['T', h1, h2, s1, m1, m2, s2, x1, x2] =>
    if h1.isDigit && h2.isDigit && s1 == ':' && m1.isDigit && m2.isDigit &&
       s2 == ':' && x1.isDigit && x2.isDigit then
      let h := digitVal h1 * 10 + digitVal h2
      let mi := digitVal m1 * 10 + digitVal m2
      let s := digitVal x1 * 10 + digitVal x2
      if h ≤ 23 && mi ≤ 59 && s ≤ 59 then some (h * 3600 + mi * 60 + s) else none
    else none
  | _ => none

/-- Reads a "+hh:mm" / "-hh:mm" GMT offset into signed seconds. -/
def readOffset (cs : List Char) : Option Int :=
  match cs with
  | [sg, h1, h2, s1, m1, m2] =>
    if (sg == '+' || sg == '-') && h1.isDigit && h2.isDigit && s1 == ':' &&
       m1.isDigit && m2.isDigit then
      let h := digitVal h1 * 10 + digitVal h2
      let mi := digitVal m1 * 10 + digitVal m2
      if h ≤ 23 && mi ≤ 59 then
        some ((if sg == '+' then (1 : Int) else -1) * (h * 3600 + mi * 60))
      else none
    else none
  | _ => none

/-- JS Date ISO parsing of a "YYYY-MM-DDThh:mm:ss±hh:mm" string, to epoch
seconds (none models an invalid date, on which toISOString would throw). -/
def jsParseIso (cs : List Char) : Option Int := do
  let v ← readDate (cs.take 10)
  let rest := cs.drop 10
  let t ← readTimeT (rest.take 9)
  let off ← readOffset (rest.drop 9)
  pure (daysFromCivil v.1 v.2.1 v.2.2 * 86400 + (t : Int) - off)

/-- JS Date toISOString of an epoch-seconds instant: the UTC ISO timestamp
"YYYY-MM-DDThh:mm:ss.000Z". -/
def isoUtc (t : Int) : String :=
  let days := t.fdiv 86400
  let secs := (t.fmod 86400).toNat
  formatIsoDate days ++ "T" ++ padNum 2 (secs / 3600) ++ ":" ++
    padNum 2 (secs % 3600 / 60) ++ ":" ++ padNum 2 (secs % 60) ++ ".000Z"

/-- The UTC instant (epoch seconds) of a civil wall-clock time read in a
fixed GMT offset: the quantity the completed-tasks date widening is
specified to compute. -/
def localCivilInstant (y m d h mi s : Nat) (off : Int) : Int :=
  daysFromCivil y m d * 86400 + ((h * 3600 + mi * 60 + s : Nat) : Int) - off

/-! ### Data model

The argument records and entities of the two task-finding tools, as
validated by their zod schemas (src/tools/find-tasks-by-date.ts and the
find-completed-tasks tool in the snapshot). Optional string arguments are
Option String; absent label lists are the empty list. -/

inductive OverdueOption
  | overdueOnly
  | includeOverdue
  | excludeOverdue
deriving DecidableEq

inductive LabelsOperator
  | lAnd
  | lOr
deriving DecidableEq

inductive RUFiltering
  | assigned
  | unassignedOrMe
  | all
deriving DecidableEq

structure FindTasksByDateArgs where
  startDate : Option String
  overdueOption : Option OverdueOption
  daysCount : Nat
  limit : Nat
  cursor : Option String
  responsibleUser : Option String
  responsibleUserFiltering : Option RUFiltering
  labels : List String
  labelsOperator : LabelsOperator
deriving DecidableEq

inductive GetBy
  | completion
  | due
deriving DecidableEq

structure FindCompletedTasksArgs where
  getBy : GetBy
  since : String
  untilDate : String
  workspaceId : Option String
  projectId : Option String
  sectionId : Option String
  parentId : Option String
  responsibleUser : Option String
  limit : Nat
  cursor : Option String
  labels : List String
  labelsOperator : LabelsOperator
deriving DecidableEq

/-- A shaped task as consumed by the response builders: the fields the
embedded code paths read (due date string, recurring flag, content). -/
structure ShapedTask where
  id : String
  content : String
  dueDate : Option String
  recurring : Bool
deriving DecidableEq

structure Collaborator where
  id : String
  name : String
  email : String
deriving DecidableEq

/-- JS truthiness of a string-or-null value: null, undefined and the empty
string are falsy. -/
def jsTruthyStr : Option String → Bool
  | none => false
  | some s => !(s == "")

/-- JS `a || b` on a string-or-undefined left operand. -/
def jsOrElse (a : Option String) (b : String) : String :=
  match a with
  | none => b
  | some s => if s = "" then b else s

/-! ### Spec-modelled helpers

The source snapshot contains the tool bodies but not the shared helper
modules (filter-helpers.ts, tool-helpers.ts, utils/labels.ts,
utils/response-builders.ts); the definitions below are modelled from the
specification's description of those helpers. -/

/-- Joins a list of strings with a separator (the join the modelled helpers
use). -/
def joinSep (sep : String) : List String → String
  | [] => ""
  | [x] => x
  | x :: xs => x ++ sep ++ joinSep sep xs

/-- Modelled from the spec: appendToQuery of the missing filter-helpers.ts.
All non-empty clauses are joined with an ampersand; empty facets contribute
nothing (no dangling operators). -/
def appendToQuery (q clause : String) : String :=
  if q = "" then clause else if clause = "" then q else q ++ " & " ++ clause

/-- Modelled from the spec: generateLabelsFilter of the missing
utils/labels.ts. Labels are rendered as at-sign terms; they are joined with
a pipe for the or operator and implicitly anded as consecutive terms for
the and operator; the empty label set contributes nothing. -/
def generateLabelsFilter (labels : List String) (op : LabelsOperator) : String :=
  let terms := labels.map fun l => "@" ++ l
  match op with
  | .lOr => joinSep " | " terms
  | .lAnd => joinSep " " terms

/-- Modelled from the spec: buildResponsibleUserQueryFilter of the missing
filter-helpers.ts. After a successful resolution the clause is
"assigned to: email"; otherwise the requested filtering mode substitutes an
alternate clause, "all" contributing no clause; the default mode is
unassignedOrMe. The exact alternate clause texts are not given by the spec
and are modelled as Todoist filter clauses. -/
def buildResponsibleUserQueryFilter (resolvedAssigneeId assigneeEmail : Option String)
    (mode : Option RUFiltering) : String :=
  match resolvedAssigneeId, assigneeEmail with
  | some _, some e => "assigned to: " ++ e
  | _, _ =>
    match mode.getD .unassignedOrMe with
    | .assigned => "assigned"
    | .unassignedOrMe => "(!assigned | assigned to: me)"
    | .all => ""

def lowerStr (s : String) : String := ⟨s.data.map Char.toLower⟩

def startsWithL : List Char → List Char → Bool
  | _, [] => true
  | [], _ :: _ => false
  | a :: as, b :: bs => a == b && startsWithL as bs

def hasSubL : List Char → List Char → Bool
  | [], pat => pat.isEmpty
  | l@(_ :: rest), pat => startsWithL l pat || hasSubL rest pat

/-- Case-sensitive substring test on character data. -/
def containsSub (s pat : String) : Bool := hasSubL s.data pat.data

inductive ToolError
  | invalidArgument (msg : String)
  | userNotFound (input : String)
  | ambiguousUser (found : List Collaborator)
  | invalidDate (s : String)
deriving DecidableEq

/-- Exact numeric-id lookup: the input is all digits and equals a
collaborator id. -/
def idLookup (s : String) (cs : List Collaborator) : Option Collaborator :=
  if s.data.all Char.isDigit then cs.find? fun c => c.id == s else none

/-- Exact case-insensitive email lookup. -/
def emailLookup (s : String) (cs : List Collaborator) : Option Collaborator :=
  cs.find? fun c => lowerStr c.email == lowerStr s

/-- Case-insensitive substring matches on display names. -/
def nameMatches (s : String) (cs : List Collaborator) : List Collaborator :=
  cs.filter fun c => containsSub (lowerStr c.name) (lowerStr s)

/-- Modelled from the spec: resolveResponsibleUser of the missing
filter-helpers.ts. Resolution order: exact numeric-id match, then exact
case-insensitive email match, then case-insensitive substring match on the
display name; several substring matches fail as ambiguous naming all
matches, zero matches fail as user-not-found; an absent input
short-circuits to no resolution performed (ok none) without touching the
collaborator list. -/
def resolveResponsibleUser (input : Option String) (cs : List Collaborator) :
    Except ToolError (Option (String × String)) :=
  match input with
  | none => .ok none
  | some s =>
    match idLookup s cs with
    | some c => .ok (some (c.id, c.email))
    | none =>
      match emailLookup s cs with
      | some c => .ok (some (c.id, c.email))
      | none =>
        match nameMatches s cs with
        | [] => .error (.userNotFound s)
        | [c] => .ok (some (c.id, c.email))
        | ms => .error (.ambiguousUser ms)

/-- Modelled from the spec: previewTasks of the missing
utils/response-builders.ts, a short default five-item preview of shaped
items. -/
def previewTasks (tasks : List ShapedTask) : List String :=
  (tasks.take 5).map fun t => "- " ++ t.content

/-- Modelled from the spec: generateTaskNextSteps of the missing
utils/response-builders.ts, next-step suggestions that vary with the
context flags computed by the caller. -/
def generateTaskNextSteps (verb : String) (tasks : List ShapedTask)
    (hasToday hasOverdue : Bool) : List String :=
  (if tasks.length > 0 then ["Use complete-tasks to complete " ++ verb ++ " tasks."] else [])
    ++ (if hasOverdue then ["Reschedule overdue tasks to today."] else [])
    ++ (if hasToday then ["Focus on today\x27s tasks first."] else [])

/-- Modelled from the spec: getDateString of the missing
utils/response-builders.ts, formatting a date value as "YYYY-MM-DD". -/
def getDateString (days : Int) : String := formatIsoDate days

/-! ### find-tasks-by-date (src/tools/find-tasks-by-date.ts) -/

/-- The date clause of findTasksByDate.execute (lines 86-100): overdue-only
yields "overdue"; "today" yields "today" when overdue tasks are excluded and
"(today | overdue)" otherwise; an explicit start date yields the
after-or-on / before window, the end date being start plus daysCount
calendar days. none models the invalid-time-value throw of formatISO on a
non-date string. -/
def dateClauseOpt (args : FindTasksByDateArgs) : Option String :=
  if args.overdueOption = some .overdueOnly then some "overdue"
  else if args.startDate = some "today" then
    some (if args.overdueOption = some .excludeOverdue then "today" else "(today | overdue)")
  else
    match args.startDate with
    | some s =>
      (addDaysIso s args.daysCount).map fun endStr =>
        "(due after: " ++ s ++ " | due: " ++ s ++ ") & due before: " ++ endStr
    | none => some ""

/-- The complete filter query built by findTasksByDate.execute
(lines 86-114): date clause, then the parenthesized labels facet when
non-empty, then the responsible-user facet. -/
def buildQuery (args : FindTasksByDateArgs)
    (resolvedAssigneeId assigneeEmail : Option String) : Option String :=
  (dateClauseOpt args).map fun q0 =>
    let labelsFilter := generateLabelsFilter args.labels args.labelsOperator
    let q1 := if labelsFilter.length > 0 then appendToQuery q0 ("(" ++ labelsFilter ++ ")") else q0
    appendToQuery q1
      (buildResponsibleUserQueryFilter resolvedAssigneeId assigneeEmail
        args.responsibleUserFiltering)

/-- The filter-hint lines of generateTextContent (lines 157-187). -/
def filterHintsOf (args : FindTasksByDateArgs) (assigneeEmail : Option String) : List String :=
  (if args.overdueOption = some .overdueOnly then ["overdue tasks only"]
   else if args.startDate = some "today" then
     ["today" ++ (if args.overdueOption = some .excludeOverdue then "" else " + overdue tasks")
        ++ (if args.daysCount > 1 then " + " ++ toString (args.daysCount - 1) ++ " more days"
            else "")]
   else
     match args.startDate with
     | some s =>
       [s ++ (if args.daysCount > 1 then
                " to " ++ (match readDate s.data with
                           | some v => getDateString (daysFromCivil v.1 v.2.1 v.2.2 + args.daysCount)
                           | none => "Invalid Date")
              else "")]
     | none => [])
  ++ (if args.labels.length > 0 then
        ["labels: " ++ joinSep (if args.labelsOperator = .lAnd then " & " else " | ")
            (args.labels.map fun l => "@" ++ l)]
      else [])
  ++ (match args.responsibleUser with
      | some ru => ["assigned to: " ++ jsOrElse assigneeEmail ru]
      | none => [])

/-- The subject line of generateTextContent (lines 190-206). -/
def subjectOf (args : FindTasksByDateArgs) (assigneeEmail : Option String) : String :=
  (if args.overdueOption = some .overdueOnly then "Overdue tasks"
   else if args.startDate = some "today" then
     (if args.overdueOption = some .excludeOverdue then "Today\x27s tasks"
      else "Today\x27s tasks + overdue")
   else
     match args.startDate with
     | some s => "Tasks for " ++ s
     | none => "Tasks")
  ++ (match args.responsibleUser with
      | some ru => " assigned to " ++ jsOrElse assigneeEmail ru
      | none => "")

/-- The why-zero-results hints of generateTextContent (lines 208-220). -/
def zeroReasonHintsOf (args : FindTasksByDateArgs) (tasks : List ShapedTask) : List String :=
  if tasks.length = 0 then
    if args.overdueOption = some .overdueOnly then ["Great job! No overdue tasks"]
    else if args.startDate = some "today" then
      ["Great job! No tasks for today"
         ++ (if args.overdueOption = some .excludeOverdue then "" else " or overdue")]
    else ["Expand date range with larger \x27daysCount\x27",
          "Check today\x27s tasks with startDate=\x27today\x27"]
  else []

/-- The has-overdue context flag of generateTextContent (lines 225-228);
now is the ambient clock in epoch seconds. -/
def hasOverdueOf (args : FindTasksByDateArgs) (tasks : List ShapedTask) (now : Int) : Bool :=
  args.overdueOption = some .overdueOnly || args.startDate = some "today" ||
    tasks.any fun t =>
      match t.dueDate with
      | some ds =>
        match readDate ds.data with
        | some v => decide (daysFromCivil v.1 v.2.1 v.2.2 * 86400 < now)
        | none => false
      | none => false

/-- The has-today context flag of generateTextContent (line 230). -/
def hasTodayOf (args : FindTasksByDateArgs) (tasks : List ShapedTask) (now : Int) : Bool :=
  args.startDate = some "today" ||
    tasks.any fun t => t.dueDate == some (getDateString (now.fdiv 86400))

/-- The summary record handed to the missing summarizeList builder. -/
structure SummaryReport where
  subject : String
  count : Nat
  limit : Nat
  nextCursor : Option String
  filterHints : List String
  previewLines : List String
  zeroReasonHints : List String
  nextSteps : List String
deriving DecidableEq

/-- generateTextContent of find-tasks-by-date.ts (lines 146-244), stopping
at the summary record handed to summarizeList. -/
def generateTextContent (tasks : List ShapedTask) (args : FindTasksByDateArgs)
    (nextCursor : Option String) (assigneeEmail : Option String) (now : Int) : SummaryReport :=
  { subject := subjectOf args assigneeEmail
    count := tasks.length
    limit := args.limit
    nextCursor := nextCursor
    filterHints := filterHintsOf args assigneeEmail
    previewLines := previewTasks tasks
    zeroReasonHints := zeroReasonHintsOf args tasks
    nextSteps := generateTaskNextSteps "listed" tasks (hasTodayOf args tasks now)
      (hasOverdueOf args tasks now) }

/-- The structured payload of findTasksByDate.execute (lines 133-142). -/
structure StructuredOutput where
  tasks : List ShapedTask
  nextCursor : Option String
  totalCount : Nat
  hasMore : Bool
  appliedFilters : FindTasksByDateArgs
deriving DecidableEq

def structuredContentByDate (tasks : List ShapedTask) (nextCursor : Option String)
    (args : FindTasksByDateArgs) : StructuredOutput :=
  { tasks := tasks
    nextCursor := nextCursor
    totalCount := tasks.length
    hasMore := jsTruthyStr nextCursor
    appliedFilters := args }

/-- The Response Shaper of findTasksByDate.execute: the dual human
summary / structured payload built from the fetched tasks (lines 126-142);
now is the ambient clock read by generateTextContent. -/
def shapeResponse (tasks : List ShapedTask) (args : FindTasksByDateArgs)
    (nextCursor : Option String) (assigneeEmail : Option String) (now : Int) :
    SummaryReport × StructuredOutput :=
  (generateTextContent tasks args nextCursor assigneeEmail now,
   structuredContentByDate tasks nextCursor args)

/-- The remote collaborator: collaborator list and a deterministic paged
task fetch, as seen through the client handle. -/
structure ClientModel where
  collaborators : List Collaborator
  fetchTasks : String → Option String → Nat → List ShapedTask × Option String

inductive NetCall
  | getCollaborators
  | getTasksByFilter (query : String) (cursor : Option String) (limit : Nat)
deriving DecidableEq

/-- findTasksByDate.execute (lines 74-143): the guard on a missing temporal
filter, responsible-user resolution, query construction, the task fetch and
the dual-shaped output, paired with the trace of remote calls issued. -/
def executeFindTasksByDate (args : FindTasksByDateArgs) (client : ClientModel) (now : Int) :
    Except ToolError (SummaryReport × StructuredOutput) × List NetCall :=
  if (args.startDate = none ∨ args.startDate = some "") ∧
      args.overdueOption ≠ some .overdueOnly then
    (.error (.invalidArgument
      "Either startDate must be provided or overdueOption must be set to overdue-only"), [])
  else
    let resTrace : List NetCall := if args.responsibleUser.isSome then [.getCollaborators] else []
    match resolveResponsibleUser args.responsibleUser client.collaborators with
    | .error e => (.error e, resTrace)
    | .ok resolved =>
      let rid := resolved.map Prod.fst
      let remail := resolved.map Prod.snd
      match buildQuery args rid remail with
      | none => (.error (.invalidDate (args.startDate.getD "")), resTrace)
      | some q =>
        let fetched := client.fetchTasks q args.cursor args.limit
        (.ok (shapeResponse fetched.1 args fetched.2 remail now),
         resTrace ++ [.getTasksByFilter q args.cursor args.limit])

/-! ### Pagination Walker (spec-modelled)

Modelled from the spec: the pagination helper behind getTasksByFilter
(tool-helpers.ts, missing from the snapshot). It repeatedly requests the
next page from a caller-supplied fetch function, starting from an optional
cursor, accumulating items until the accumulated count reaches the limit or
the page reports no next cursor; on reaching the limit mid-page the excess
is truncated and the real next cursor of that page is surfaced. The fuel
argument bounds the recursion; limit steps suffice when every page is
non-empty. -/

structure Page (α : Type) where
  items : List α
  nextCursor : Option String

def walkAux {α : Type} (fetch : Option String → Page α) (limit : Nat) :
    Nat → Option String → List α → List α × Option String
  | 0, cursor, acc => (acc, cursor)
  | fuel + 1, cursor, acc =>
    let page := fetch cursor
    let acc2 := acc ++ page.items
    if limit ≤ acc2.length then (acc2.take limit, page.nextCursor)
    else
      match page.nextCursor with
      | none => (acc2, none)
      | some c => walkAux fetch limit fuel (some c) acc2

def paginationWalk {α : Type} (fetch : Option String → Page α) (limit : Nat)
    (start : Option String) : List α × Option String :=
  walkAux fetch limit limit start []

/-- The chain of pages a fetch source yields when followed cursor by cursor
from a starting cursor (cut off by fuel). -/
def pageChain {α : Type} (fetch : Option String → Page α) :
    Nat → Option String → List (Page α)
  | 0, _ => []
  | fuel + 1, cursor =>
    let p := fetch cursor
    match p.nextCursor with
    | none => [p]
    | some c => p :: pageChain fetch fuel (some c)

/-- Transliteration of the walker contract onto an explicit page sequence:
accumulate page items in order, stop at the first page at which the
accumulated count reaches the limit, truncating that page's excess and
surfacing that page's real next cursor; stop with no cursor when the pages
run out first. -/
def specWalk {α : Type} (limit : Nat) : List (Page α) → List α × Option String
  | [] => ([], none)
  | p :: ps =>
    if limit ≤ p.items.length then (p.items.take limit, p.nextCursor)
    else
      match p.nextCursor with
      | none => (p.items, none)
      | some _ =>
        let r := specWalk (limit - p.items.length) ps
        (p.items ++ r.1, r.2)

/-- The fake source of the spec's walker test: pages of 20, 20, 20 and 5
items chained by cursors c1, c2, c3. -/
def examplePages : Option String → Page Nat
  | none => ⟨List.range 20, some "c1"⟩
  | some "c1" => ⟨(List.range 20).map (· + 20), some "c2"⟩
  | some "c2" => ⟨(List.range 20).map (· + 40), some "c3"⟩
  | some "c3" => ⟨(List.range 5).map (· + 60), none⟩
  | some _ => ⟨[0], none⟩

/-! ### find-completed-tasks (cli-helpers.ts snapshot, findCompletedTasks) -/

/-- The GMT offset string used for widening: the user's tzInfo gmtString
with a JS falsy fallback to +00:00 (line 160). -/
def userGmtOffset (tzGmtString : Option String) : String :=
  match tzGmtString with
  | some g => if g = "" then "+00:00" else g
  | none => "+00:00"

/-- The (since, until) pair sent to the completed-tasks API
(lines 158-169): local whole-day bounds in the user's GMT offset, parsed by
JS Date and re-serialized as UTC ISO timestamps; none models an invalid
date, on which toISOString would throw. -/
def completedTasksWindow (since untilDate : String) (tzGmtString : Option String) :
    Option (String × String) :=
  let off := userGmtOffset tzGmtString
  match jsParseIso (since ++ "T00:00:00" ++ off).data,
        jsParseIso (untilDate ++ "T23:59:59" ++ off).data with
  | some s, some u => some (isoUtc s, isoUtc u)
  | _, _ => none

/-- The structured payload of findCompletedTasks.execute (lines 194-203). -/
structure StructuredCompleted where
  tasks : List ShapedTask
  nextCursor : Option String
  totalCount : Nat
  hasMore : Bool
  appliedFilters : FindCompletedTasksArgs
deriving DecidableEq

def structuredContentCompleted (tasks : List ShapedTask) (nextCursor : Option String)
    (args : FindCompletedTasksArgs) : StructuredCompleted :=
  { tasks := tasks
    nextCursor := nextCursor
    totalCount := tasks.length
    hasMore := jsTruthyStr nextCursor
    appliedFilters := args }

/-! ### Structural well-formedness of filter queries

A single left-to-right scan checks the Filter Builder invariants: the state
tracks whether the scanner still expects clause content (at the start and
just after an operator). An operator met while content is expected is a
doubled, leading or empty-clause operator; spaces and parentheses are
transparent; the scan must end not expecting content (no trailing operator,
no empty final clause, not the empty query). -/

def isOpChar (c : Char) : Bool := c == '&' || c == '|'

def wfStep (st : Option Bool) (c : Char) : Option Bool :=
  match st with
  | none => none
  | some expect =>
    if isOpChar c then (if expect then none else some true)
    else if c = ' ' ∨ c = '(' ∨ c = ')' then some expect
    else some false

def wfScanF (l : List Char) (st : Option Bool) : Option Bool := l.foldl wfStep st

/-- A structurally well-formed filter query: non-empty, no empty clause, no
doubled and no leading or trailing operators. -/
def WellFormedQuery (s : String) : Prop := wfScanF s.data (some true) = some false

instance (s : String) : Decidable (WellFormedQuery s) := by
  unfold WellFormedQuery; infer_instance

deriving instance DecidableEq for Except

/-! ### Concrete inputs used by witnesses and counterexamples -/

def exampleArgsByDate : FindTasksByDateArgs :=
  ⟨some "2025-01-15", none, 7, 50, none, none, none, [], .lOr⟩

def exampleArgsOverdueOnly : FindTasksByDateArgs :=
  ⟨none, some .overdueOnly, 1, 50, none, none, none, [], .lOr⟩

def exampleArgsMissingDate : FindTasksByDateArgs :=
  ⟨none, none, 1, 50, none, none, none, [], .lOr⟩

def exampleArgsCompleted : FindCompletedTasksArgs :=
  ⟨.completion, "2025-03-01", "2025-03-07", none, none, none, none, none, 50, none, [], .lOr⟩

def exampleClient : ClientModel := ⟨[], fun _ _ _ => ([], none)⟩

def exampleArgsLabels : FindTasksByDateArgs :=
  ⟨some "2025-01-15", none, 7, 50, none, some "john", some .unassignedOrMe,
   ["work", "home"], .lOr⟩

def johnDoe : Collaborator := ⟨"1", "John Doe", "john@x.com"⟩

def johnSmith : Collaborator := ⟨"2", "John Smith", "js@x.com"⟩

end Todoist

namespace Todoist

/-! ### Theorems -/

/-- C1: the date clause of the find-tasks-by-date filter query: "overdue"
for overdue-only; for startDate "today" the clause is "today" under
exclude-overdue and "(today | overdue)" otherwise; for an explicit start
date the clause is the after-or-on / strictly-before window whose end date
is the start date plus daysCount calendar days, with the concrete instance
2025-01-15 plus 7 days giving 2025-01-22. -/
theorem dateClause_characterization (args : FindTasksByDateArgs) :
    (args.overdueOption = some .overdueOnly → dateClauseOpt args = some "overdue")
    ∧ (args.overdueOption ≠ some .overdueOnly → args.startDate = some "today" →
        dateClauseOpt args =
          some (if args.overdueOption = some .excludeOverdue then "today"
                else "(today | overdue)"))
    ∧ (∀ s y m d, args.overdueOption ≠ some .overdueOnly → args.startDate = some s →
        s ≠ "today" → readDate s.data = some (y, m, d) →
        dateClauseOpt args =
          some ("(due after: " ++ s ++ " | due: " ++ s ++ ") & due before: "
            ++ formatIsoDate (daysFromCivil y m d + args.daysCount)))
    ∧ addDaysIso "2025-01-15" 7 = some "2025-01-22" := by
  refine ⟨fun h => by simp [dateClauseOpt, h], fun h1 h2 => by simp [dateClauseOpt, h1, h2],
    fun s y m d h1 h2 h3 h4 => ?_, by decide⟩
  simp [dateClauseOpt, h1, h2, Option.some.injEq, h3, addDaysIso, h4]

/-- C1 witness: the explicit-date branch evaluated at startDate 2025-01-15
with daysCount 7. -/
theorem dateClause_characterization_witness :
    dateClauseOpt exampleArgsByDate =
      some "(due after: 2025-01-15 | due: 2025-01-15) & due before: 2025-01-22" := by
  have h := (dateClause_characterization exampleArgsByDate).2.2.1 "2025-01-15" 2025 1 15
    (by decide) rfl (by decide) (by decide)
  rw [h]; decide

/-- C4: responsible-user resolution tries an exact numeric-id match, then an
exact case-insensitive email match, then a case-insensitive substring match
on the display name, failing as ambiguous (naming all matches) on several
substring matches and as user-not-found on none; an absent input
short-circuits to no resolution performed; with the collaborator
John Doe / john at x.com, resolving "john" succeeds, "jane" is not found,
and two Johns are ambiguous. -/
theorem resolveResponsibleUser_spec :
    (∀ cs, resolveResponsibleUser none cs = .ok none)
    ∧ (∀ s cs c, idLookup s cs = some c →
        resolveResponsibleUser (some s) cs = .ok (some (c.id, c.email)))
    ∧ (∀ s cs c, idLookup s cs = none → emailLookup s cs = some c →
        resolveResponsibleUser (some s) cs = .ok (some (c.id, c.email)))
    ∧ (∀ s cs, idLookup s cs = none → emailLookup s cs = none →
        resolveResponsibleUser (some s) cs =
          (match nameMatches s cs with
           | [] => .error (.userNotFound s)
           | [c] => .ok (some (c.id, c.email))
           | ms => .error (.ambiguousUser ms)))
    ∧ resolveResponsibleUser (some "john") [johnDoe] = .ok (some ("1", "john@x.com"))
    ∧ resolveResponsibleUser (some "jane") [johnDoe] = .error (.userNotFound "jane")
    ∧ resolveResponsibleUser (some "john") [johnDoe, johnSmith]
        = .error (.ambiguousUser [johnDoe, johnSmith]) := by
  refine ⟨fun cs => rfl, fun s cs c h => by simp [resolveResponsibleUser, h],
    fun s cs c h1 h2 => by simp [resolveResponsibleUser, h1, h2],
    fun s cs h1 h2 => by simp [resolveResponsibleUser, h1, h2],
    by decide, by decide, by decide⟩

/-- C4 witness: the numeric-id step applied to the concrete collaborator
list. -/
theorem resolveResponsibleUser_spec_witness :
    resolveResponsibleUser (some "1") [johnDoe] = .ok (some ("1", "john@x.com")) := by
  have h := resolveResponsibleUser_spec.2.1 "1" [johnDoe] johnDoe (by decide)
  simpa [johnDoe] using h

/-- C7: on an empty result, overdue-only produces the positive no-overdue
hint, an explicit non-today start date produces the date-range hints
suggesting a larger daysCount, and the two hint lists are distinct. -/
theorem zeroReasonHints_spec (args : FindTasksByDateArgs) :
    (args.overdueOption = some .overdueOnly →
      zeroReasonHintsOf args [] = ["Great job! No overdue tasks"])
    ∧ (∀ s, args.overdueOption ≠ some .overdueOnly → args.startDate = some s → s ≠ "today" →
        zeroReasonHintsOf args [] =
          ["Expand date range with larger \x27daysCount\x27",
           "Check today\x27s tasks with startDate=\x27today\x27"])
    ∧ (["Great job! No overdue tasks"] : List String) ≠
        ["Expand date range with larger \x27daysCount\x27",
         "Check today\x27s tasks with startDate=\x27today\x27"] := by
  refine ⟨fun h => by simp [zeroReasonHintsOf, h], fun s h1 h2 h3 => ?_, by decide⟩
  have hs : args.startDate ≠ some "today" := by
    rw [h2]; intro h; exact h3 (by injection h)
  simp [zeroReasonHintsOf, h1, hs]

/-- C7 witness: the two empty-result branches evaluated at concrete
argument records. -/
theorem zeroReasonHints_spec_witness :
    zeroReasonHintsOf exampleArgsOverdueOnly [] = ["Great job! No overdue tasks"]
      ∧ zeroReasonHintsOf exampleArgsByDate [] =
        ["Expand date range with larger \x27daysCount\x27",
         "Check today\x27s tasks with startDate=\x27today\x27"] :=
  ⟨(zeroReasonHints_spec exampleArgsOverdueOnly).1 rfl,
   (zeroReasonHints_spec exampleArgsByDate).2.1 "2025-01-15" (by decide) rfl (by decide)⟩

/-- C8: the structured payload of the Response Shaper is a pure function of
the raw inputs (tasks, arguments, next cursor, resolved email): two runs at
different ambient clock readings, the only impure input of the shaper,
produce identical structured output. -/
theorem structured_deterministic (tasks : List ShapedTask) (args : FindTasksByDateArgs)
    (nextCursor : Option String) (assigneeEmail : Option String) (now1 now2 : Int) :
    (shapeResponse tasks args nextCursor assigneeEmail now1).2 =
      (shapeResponse tasks args nextCursor assigneeEmail now2).2 := rfl

/-- C10 counterexample: with the empty-string cursor the structured payload
sets hasMore to false (JS truthiness) although the cursor is present, so
hasMore is not equivalent to mere presence of nextCursor. -/
theorem hasMore_claim_counterexample :
    ¬ (((structuredContentByDate [] (some "") exampleArgsByDate).hasMore = true) ↔
        (some "" : Option String).isSome = true) := by decide

/-- C10 (amended): in both finder tools the structured payload keeps
totalCount equal to the number of returned tasks, and hasMore is true
exactly when nextCursor is present and non-empty (JS truthiness of the
cursor string). -/
theorem structured_invariants (tasks : List ShapedTask) (c : Option String)
    (a1 : FindTasksByDateArgs) (a2 : FindCompletedTasksArgs) :
    ((structuredContentByDate tasks c a1).totalCount = tasks.length
      ∧ ((structuredContentByDate tasks c a1).hasMore = true ↔ ∃ s, c = some s ∧ s ≠ ""))
    ∧ ((structuredContentCompleted tasks c a2).totalCount = tasks.length
      ∧ ((structuredContentCompleted tasks c a2).hasMore = true ↔ ∃ s, c = some s ∧ s ≠ "")) := by
  cases c <;>
    simp [structuredContentByDate, structuredContentCompleted, jsTruthyStr]

/-- Resolution failures are user-not-found or ambiguous-user conditions,
never the invalid-argument condition. -/
theorem resolve_error_shape (input : Option String) (cs : List Collaborator) (e : ToolError)
    (h : resolveResponsibleUser input cs = .error e) :
    (∃ s, e = .userNotFound s) ∨ (∃ ms, e = .ambiguousUser ms) := by
  unfold resolveResponsibleUser at h
  split at h
  · exact absurd h (by simp)
  · split at h
    · exact absurd h (by simp)
    · split at h
      · exact absurd h (by simp)
      · split at h
        · injection h with he
          exact Or.inl ⟨_, he.symm⟩
        · exact absurd h (by simp)
        · injection h with he
          exact Or.inr ⟨_, he.symm⟩

/-- When the temporal-filter guard passes, the execute path can fail only
with resolution or invalid-date conditions, never the invalid-argument
condition. -/
theorem execute_no_invalidArgument (args : FindTasksByDateArgs) (client : ClientModel)
    (now : Int)
    (hG : ¬ ((args.startDate = none ∨ args.startDate = some "") ∧
        args.overdueOption ≠ some OverdueOption.overdueOnly)) :
    ∀ m, (executeFindTasksByDate args client now).1 ≠ .error (.invalidArgument m) := by
  intro m
  unfold executeFindTasksByDate
  rw [if_neg hG]
  rcases hres : resolveResponsibleUser args.responsibleUser client.collaborators with e | r
  · rcases resolve_error_shape _ _ _ hres with ⟨s, rfl⟩ | ⟨ms, rfl⟩ <;> simp [hres]
  · rcases hq : buildQuery args (r.map Prod.fst) (r.map Prod.snd) with _ | q <;>
      simp [hres, hq]

/-- C3: find-tasks-by-date fails with the invalid-argument condition exactly
when startDate is absent and overdue-only is not requested, and on that
failure no remote call has been made (the trace of network calls is
empty). The hypothesis reflects the zod schema, which rejects an empty
startDate string before execute runs. -/
theorem invalidArgument_iff_no_temporal (args : FindTasksByDateArgs) (client : ClientModel)
    (now : Int) (hval : args.startDate ≠ some "") :
    ((∃ m, (executeFindTasksByDate args client now).1 = .error (.invalidArgument m)) ↔
      (args.startDate = none ∧ args.overdueOption ≠ some .overdueOnly))
    ∧ ((args.startDate = none ∧ args.overdueOption ≠ some .overdueOnly) →
        (executeFindTasksByDate args client now).2 = []) := by
  by_cases hG : (args.startDate = none ∨ args.startDate = some "") ∧
      args.overdueOption ≠ some OverdueOption.overdueOnly
  · have hsd : args.startDate = none := hG.1.resolve_right hval
    constructor
    · rw [executeFindTasksByDate, if_pos hG]
      exact ⟨fun _ => ⟨hsd, hG.2⟩, fun _ =>
        ⟨"Either startDate must be provided or overdueOption must be set to overdue-only", rfl⟩⟩
    · intro _; rw [executeFindTasksByDate, if_pos hG]
  · refine ⟨⟨fun h => ?_, fun h => absurd ⟨Or.inl h.1, h.2⟩ hG⟩,
      fun h => absurd ⟨Or.inl h.1, h.2⟩ hG⟩
    obtain ⟨m, hm⟩ := h
    exact absurd hm (execute_no_invalidArgument args client now hG m)

/-- C3 witness: the guard evaluated at arguments with no startDate and no
overdue-only option leaves the network trace empty. -/
theorem invalidArgument_iff_no_temporal_witness :
    (executeFindTasksByDate exampleArgsMissingDate exampleClient 0).2 = [] :=
  (invalidArgument_iff_no_temporal exampleArgsMissingDate exampleClient 0
    (by decide)).2 ⟨rfl, by decide⟩

/-- The page-sequence walk never accumulates past the limit. -/
theorem specWalk_length {α : Type} : ∀ (ps : List (Page α)) (L : Nat),
    (specWalk L ps).1.length ≤ L := by
  intro ps
  induction ps with
  | nil => intro L; simp [specWalk]
  | cons p ps ih =>
    intro L
    rw [specWalk]
    by_cases hle : L ≤ p.items.length
    · simp [hle]
    · rcases hnc : p.nextCursor with _ | c
      · simp only [if_neg hle, hnc]
        omega
      · simp only [if_neg hle, hnc, List.length_append]
        have := ih (L - p.items.length)
        omega

/-- With every page non-empty, fuel covering the remaining need and the
accumulator still short of the limit, the fuelled walker computes exactly
the page-sequence transliteration of the contract on the cursor chain. -/
theorem walkAux_eq_specWalk {α : Type} (fetch : Option String → Page α) (L : Nat)
    (hpos : ∀ c, (fetch c).items ≠ []) :
    ∀ (fuel : Nat) (cursor : Option String) (acc : List α),
      acc.length < L → L - acc.length ≤ fuel →
      walkAux fetch L fuel cursor acc =
        (acc ++ (specWalk (L - acc.length) (pageChain fetch fuel cursor)).1,
         (specWalk (L - acc.length) (pageChain fetch fuel cursor)).2) := by
  intro fuel
  induction fuel with
  | zero =>
    intro cursor acc hlt hfuel
    exact absurd hfuel (by omega)
  | succ fuel ih =>
    intro cursor acc hlt hfuel
    have hpos1 : 0 < (fetch cursor).items.length := List.length_pos.mpr (hpos cursor)
    have htake : (acc ++ (fetch cursor).items).take L
        = acc ++ (fetch cursor).items.take (L - acc.length) := by
      rw [List.take_append_eq_append_take, List.take_of_length_le (le_of_lt hlt)]
    simp only [walkAux, pageChain]
    by_cases hle : L ≤ (acc ++ (fetch cursor).items).length
    · have hle' : L - acc.length ≤ (fetch cursor).items.length := by
        rw [List.length_append] at hle; omega
      have hle2 : L ≤ (fetch cursor).items.length + acc.length := by
        rw [List.length_append] at hle; omega
      rcases hnc : (fetch cursor).nextCursor with _ | c <;>
        · simp only [hnc, if_pos hle, htake]
          rw [specWalk]
          simp [hle2, hnc]
    · have hlt2 : (acc ++ (fetch cursor).items).length < L := by omega
      have hnotle : ¬ (L - acc.length ≤ (fetch cursor).items.length) := by
        rw [List.length_append] at hlt2; omega
      rcases hnc : (fetch cursor).nextCursor with _ | c
      · simp only [hnc, if_neg hle]
        rw [specWalk]
        simp [hnotle, hnc]
      · simp only [hnc, if_neg hle]
        have hfuel2 : L - (acc ++ (fetch cursor).items).length ≤ fuel := by
          rw [List.length_append]
          rw [List.length_append] at hlt2
          omega
        rw [ih (some c) (acc ++ (fetch cursor).items) hlt2 hfuel2]
        rw [specWalk]
        have harith : L - acc.length - (fetch cursor).items.length
            = L - (acc ++ (fetch cursor).items).length := by
          rw [List.length_append]; omega
        simp [hnotle, harith, List.append_assoc, hnc]

/-- C2: the Pagination Walker accumulates page items in cursor order and
stops as soon as it holds at least the limit or the source reports no next
cursor; on reaching the limit mid-page the excess of that page is truncated
and that page's real next cursor is surfaced (the page-sequence
transliteration specWalk states exactly this contract), and the result
never exceeds the limit. Pages are assumed non-empty so that the modelled
fuel covers the walk. -/
theorem paginationWalk_spec {α : Type} (fetch : Option String → Page α) (L : Nat)
    (start : Option String) (hpos : ∀ c, (fetch c).items ≠ []) (hL : 1 ≤ L) :
    paginationWalk fetch L start = specWalk L (pageChain fetch L start)
    ∧ (paginationWalk fetch L start).1.length ≤ L := by
  have h := walkAux_eq_specWalk fetch L hpos L start [] (by simpa using hL) (by simp)
  have hmain : paginationWalk fetch L start = specWalk L (pageChain fetch L start) := by
    rw [paginationWalk, h]
    simp
  refine ⟨hmain, ?_⟩
  rw [hmain]
  exact specWalk_length _ _

/-- C2 witness: the spec's fake source of pages of 20, 20, 20 and 5 items
with limit 45 satisfies the hypotheses, and the walker returns exactly 45
items together with the third page's non-absent cursor c3. -/
theorem paginationWalk_spec_witness :
    (∀ c, (examplePages c).items ≠ []) ∧ (1 : Nat) ≤ 45
    ∧ paginationWalk examplePages 45 none = specWalk 45 (pageChain examplePages 45 none)
    ∧ (paginationWalk examplePages 45 none).1.length = 45
    ∧ (paginationWalk examplePages 45 none).2 = some "c3" := by
  have hpos : ∀ c, (examplePages c).items ≠ [] := by
    intro c
    unfold examplePages
    split <;> decide
  exact ⟨hpos, by norm_num,
    (paginationWalk_spec examplePages 45 none hpos (by norm_num)).1, by decide, by decide⟩

/-- A successfully read date string is exactly ten characters long. -/
theorem readDate_len {cs : List Char} {v : Nat × Nat × Nat} (h : readDate cs = some v) :
    cs.length = 10 := by
  unfold readDate at h
  split at h
  · simp_all
  · exact absurd h (by simp)

/-- JS ISO parsing of a date string concatenated with a fixed-width time
block and offset decomposes into the three reads. -/
theorem jsParseIso_decompose (dstr tstr ostr : String) (y m d : Nat) (t : Nat) (off : Int)
    (hd : readDate dstr.data = some (y, m, d))
    (ht : readTimeT tstr.data = some t)
    (hlen : tstr.data.length = 9)
    (ho : readOffset ostr.data = some off) :
    jsParseIso (dstr ++ tstr ++ ostr).data
      = some (daysFromCivil y m d * 86400 + (t : Int) - off) := by
  have hdlen : dstr.data.length = 10 := readDate_len hd
  have hdata : (dstr ++ tstr ++ ostr).data = dstr.data ++ (tstr.data ++ ostr.data) := by
    simp [String.data_append, List.append_assoc]
  unfold jsParseIso
  rw [hdata, List.take_left' hdlen, List.drop_left' hdlen]
  simp only [List.take_left' hlen, List.drop_left' hlen, hd, ht, ho]
  rfl

/-- C9: the completed-tasks date window is widened to whole local days in
the user's GMT offset: the since bound is the UTC instant of the since
date at midnight in that offset and the until bound the UTC instant of the
until date at 23:59:59 in it, both serialized as UTC ISO timestamps, the
offset defaulting to +00:00 (which reads as offset zero) when the user has
no timezone info. -/
theorem completedWindow_spec (since untilDate : String) (tz : Option String)
    (y1 m1 d1 y2 m2 d2 : Nat) (off : Int)
    (h1 : readDate since.data = some (y1, m1, d1))
    (h2 : readDate untilDate.data = some (y2, m2, d2))
    (h3 : readOffset (userGmtOffset tz).data = some off) :
    completedTasksWindow since untilDate tz
      = some (isoUtc (localCivilInstant y1 m1 d1 0 0 0 off),
              isoUtc (localCivilInstant y2 m2 d2 23 59 59 off))
    ∧ userGmtOffset none = "+00:00"
    ∧ readOffset ("+00:00".data) = some 0 := by
  refine ⟨?_, rfl, by decide⟩
  simp only [completedTasksWindow]
  rw [jsParseIso_decompose since "T00:00:00" (userGmtOffset tz) y1 m1 d1 0 off h1
      (by decide) (by decide) h3,
    jsParseIso_decompose untilDate "T23:59:59" (userGmtOffset tz) y2 m2 d2 86399 off h2
      (by decide) (by decide) h3]
  unfold localCivilInstant
  norm_num

/-- C9 witness: the window for 2025-03-10 to 2025-03-12 in offset +05:30
(19800 seconds) is the pair of UTC instants 2025-03-09T18:30:00Z and
2025-03-12T18:29:59Z. -/
theorem completedWindow_spec_witness :
    completedTasksWindow "2025-03-10" "2025-03-12" (some "+05:30")
      = some ("2025-03-09T18:30:00.000Z", "2025-03-12T18:29:59.000Z") := by
  have h := (completedWindow_spec "2025-03-10" "2025-03-12" (some "+05:30")
    2025 3 10 2025 3 12 19800 (by decide) (by decide) (by decide)).1
  rw [h]
  decide

/-! ### Scan lemmas for structural well-formedness -/

theorem strExt {a b : String} (h : a.data = b.data) : a = b := by
  cases a; cases b; exact congrArg String.mk h

theorem wfScanF_nil (st : Option Bool) : wfScanF [] st = st := rfl

theorem wfScanF_cons (c : Char) (l : List Char) (st : Option Bool) :
    wfScanF (c :: l) st = wfScanF l (wfStep st c) := rfl

theorem wfScanF_append (a b : List Char) (st : Option Bool) :
    wfScanF (a ++ b) st = wfScanF b (wfScanF a st) :=
  List.foldl_append _ _ _ _

theorem wfScanF_none (l : List Char) : wfScanF l none = none := by
  induction l with
  | nil => rfl
  | cons c rest ih => rw [wfScanF_cons]; exact ih

theorem scan_opfree : ∀ (l : List Char), (∀ c ∈ l, isOpChar c = false) →
    wfScanF l (some false) = some false := by
  intro l
  induction l with
  | nil => intro _; rfl
  | cons c rest ih =>
    intro h
    rw [wfScanF_cons]
    have hc : isOpChar c = false := h c (List.mem_cons_self _ _)
    have hstep : wfStep (some false) c = some false := by
      simp [wfStep, hc]
    rw [hstep]
    exact ih fun c2 hc2 => h c2 (List.mem_cons_of_mem _ hc2)

theorem scan_at_term (l : List Char) (h : ∀ c ∈ l, isOpChar c = false) (b : Bool) :
    wfScanF ('@' :: l) (some b) = some false := by
  rw [wfScanF_cons]
  have hstep : wfStep (some b) '@' = some false := by cases b <;> decide
  rw [hstep]
  exact scan_opfree l h

theorem at_data (x : String) : ("@" ++ x).data = '@' :: x.data := by
  rw [String.data_append]; rfl

theorem scan_join_terms (sep : String) (b' : Bool)
    (hsep : wfScanF sep.data (some false) = some b') :
    ∀ (ls : List String), ls ≠ [] → (∀ l ∈ ls, ∀ c ∈ l.data, isOpChar c = false) →
      ∀ b, wfScanF (joinSep sep (ls.map fun l => "@" ++ l)).data (some b) = some false := by
  intro ls
  induction ls with
  | nil => intro h; exact absurd rfl h
  | cons x xs ih =>
    intro _ hop b
    cases xs with
    | nil =>
      simp only [List.map_cons, List.map_nil, joinSep]
      rw [at_data]
      exact scan_at_term _ (hop x (by simp)) b
    | cons y ys =>
      simp only [List.map_cons, joinSep]
      rw [String.data_append, String.data_append, wfScanF_append, wfScanF_append, at_data,
        scan_at_term x.data (hop x (by simp)) b, hsep]
      have := ih (by simp) (fun l hl => hop l (List.mem_cons_of_mem _ hl)) b'
      simpa only [List.map_cons] using this

theorem wf_ne_empty {s : String} (h : WellFormedQuery s) : s ≠ "" := by
  intro hEq
  rw [hEq] at h
  exact absurd h (by decide)

theorem scan_two_ops (op : Char) (hop : isOpChar op = true) (y : List Char) (b : Bool) :
    wfScanF (op :: op :: y) (some b) = none := by
  rw [wfScanF_cons, wfScanF_cons]
  cases b
  · have h1 : wfStep (some false) op = some true := by simp [wfStep, hop]
    have h2 : wfStep (some true) op = none := by simp [wfStep, hop]
    rw [h1, h2, wfScanF_none]
  · have h1 : wfStep (some true) op = none := by simp [wfStep, hop]
    rw [h1, show wfStep none op = none from rfl, wfScanF_none]

theorem wf_no_doubled {s : String} (h : WellFormedQuery s) (op : Char)
    (hop : isOpChar op = true) : ∀ x y, s.data ≠ x ++ op :: op :: y := by
  intro x y hEq
  unfold WellFormedQuery at h
  rw [hEq, wfScanF_append] at h
  rcases hx : wfScanF x (some true) with _ | b
  · rw [hx, wfScanF_none] at h; exact absurd h (by simp)
  · rw [hx, scan_two_ops op hop y b] at h; exact absurd h (by simp)

theorem wf_head {s : String} (h : WellFormedQuery s) :
    ∀ c y, s.data = c :: y → isOpChar c = false := by
  intro c y hEq
  by_contra hc
  rw [Bool.not_eq_false] at hc
  unfold WellFormedQuery at h
  rw [hEq, wfScanF_cons] at h
  have hstep : wfStep (some true) c = none := by simp [wfStep, hc]
  rw [hstep, wfScanF_none] at h
  exact absurd h (by simp)

theorem wf_last {s : String} (h : WellFormedQuery s) :
    ∀ x c, s.data = x ++ [c] → isOpChar c = false := by
  intro x c hEq
  by_contra hc
  rw [Bool.not_eq_false] at hc
  unfold WellFormedQuery at h
  rw [hEq, wfScanF_append] at h
  rcases hx : wfScanF x (some true) with _ | b
  · rw [hx, wfScanF_none] at h; exact absurd h (by simp)
  · rw [hx, wfScanF_cons] at h
    cases b
    · have hstep : wfStep (some false) c = some true := by simp [wfStep, hc]
      rw [hstep] at h
      exact absurd h (by simp [wfScanF_nil])
    · have hstep : wfStep (some true) c = none := by simp [wfStep, hc]
      rw [hstep, wfScanF_none] at h
      exact absurd h (by simp)

theorem wf_join (a b : String) (ha : WellFormedQuery a) (hb : WellFormedQuery b) :
    WellFormedQuery (a ++ " & " ++ b) := by
  unfold WellFormedQuery at *
  rw [String.data_append, String.data_append, wfScanF_append, wfScanF_append, ha,
    show wfScanF (" & ".data) (some false) = some true from by decide]
  exact hb

theorem appendToQuery_eq_join (q c : String) (hq : q ≠ "") (hc : c ≠ "") :
    appendToQuery q c = q ++ " & " ++ c := by
  unfold appendToQuery
  rw [if_neg hq, if_neg hc]

theorem appendToQuery_wf (q c : String) (hq : WellFormedQuery q)
    (hc : c = "" ∨ WellFormedQuery c) : WellFormedQuery (appendToQuery q c) := by
  rcases hc with rfl | hc
  · unfold appendToQuery
    rw [if_neg (wf_ne_empty hq), if_pos rfl]
    exact hq
  · rw [appendToQuery_eq_join q c (wf_ne_empty hq) (wf_ne_empty hc)]
    exact wf_join q c hq hc

/-! ### Character lemmas for dates and rendered numbers -/

theorem digit_not_op {c : Char} (h : c.isDigit = true) : isOpChar c = false := by
  by_cases h1 : c = '&'
  · subst h1; exact absurd h (by decide)
  · by_cases h2 : c = '|'
    · subst h2; exact absurd h (by decide)
    · simp [isOpChar, h1, h2]

theorem readDate_chars {cs : List Char} {v : Nat × Nat × Nat} (h : readDate cs = some v) :
    ∀ c ∈ cs, isOpChar c = false := by
  unfold readDate at h
  split at h
  · rename_i c1 c2 c3 c4 s1 c5 c6 s2 c7 c8
    split at h
    · rename_i hb
      simp only [Bool.and_eq_true, beq_iff_eq] at hb
      obtain ⟨⟨⟨⟨⟨⟨⟨⟨⟨h1, h2⟩, h3⟩, h4⟩, h5⟩, h6⟩, h7⟩, h8⟩, h9⟩, h10⟩ := hb
      intro c hc
      simp only [List.mem_cons, List.not_mem_nil, or_false] at hc
      rcases hc with rfl | rfl | rfl | rfl | rfl | rfl | rfl | rfl | rfl | rfl
      · exact digit_not_op h1
      · exact digit_not_op h2
      · exact digit_not_op h3
      · exact digit_not_op h4
      · rw [h5]; decide
      · exact digit_not_op h6
      · exact digit_not_op h7
      · rw [h8]; decide
      · exact digit_not_op h9
      · exact digit_not_op h10
    · exact absurd h (by simp)
  · exact absurd h (by simp)

theorem digitChar_isDigit {n : Nat} (h : n < 10) : (Nat.digitChar n).isDigit = true := by
  interval_cases n <;> decide

theorem natToCharsAux_digits : ∀ (fuel n : Nat), ∀ c ∈ natToCharsAux fuel n,
    c.isDigit = true := by
  intro fuel
  induction fuel with
  | zero => intro n c hc; simp [natToCharsAux] at hc
  | succ fuel ih =>
    intro n c hc
    cases n with
    | zero => simp [natToCharsAux] at hc
    | succ k =>
      simp only [natToCharsAux] at hc
      rcases List.mem_append.mp hc with h | h
      · exact ih _ c h
      · simp only [List.mem_singleton] at h
        subst h
        exact digitChar_isDigit (Nat.mod_lt _ (by norm_num))

theorem natToChars_digits (n : Nat) : ∀ c ∈ natToChars n, c.isDigit = true := by
  unfold natToChars
  split
  · intro c hc
    simp only [List.mem_singleton] at hc
    subst hc
    decide
  · exact natToCharsAux_digits n n

theorem padNum_digits (w n : Nat) : ∀ c ∈ (padNum w n).data, c.isDigit = true := by
  intro c hc
  unfold padNum at hc
  rcases List.mem_append.mp hc with h | h
  · rw [List.eq_of_mem_replicate h]; decide
  · exact natToChars_digits n c h

theorem formatIsoDate_not_op (z : Int) : ∀ c ∈ (formatIsoDate z).data, isOpChar c = false := by
  intro c hc
  simp only [formatIsoDate, String.data_append, List.mem_append] at hc
  rcases hc with ((((h | h) | h) | h) | h)
  · exact digit_not_op (padNum_digits _ _ c h)
  · simp only [List.mem_singleton] at h
    subst h; decide
  · exact digit_not_op (padNum_digits _ _ c h)
  · simp only [List.mem_singleton] at h
    subst h; decide
  · exact digit_not_op (padNum_digits _ _ c h)

/-! ### Well-formedness of the individual clauses -/

theorem wf_explicitDate (s e : String)
    (hs : ∀ c ∈ s.data, isOpChar c = false)
    (he : ∀ c ∈ e.data, isOpChar c = false) :
    WellFormedQuery ("(due after: " ++ s ++ " | due: " ++ s ++ ") & due before: " ++ e) := by
  unfold WellFormedQuery
  rw [String.data_append, String.data_append, String.data_append, String.data_append,
    String.data_append, wfScanF_append, wfScanF_append, wfScanF_append, wfScanF_append,
    wfScanF_append,
    show wfScanF ("(due after: ".data) (some true) = some false from by decide,
    scan_opfree s.data hs,
    show wfScanF (" | due: ".data) (some false) = some false from by decide,
    scan_opfree s.data hs,
    show wfScanF (") & due before: ".data) (some false) = some false from by decide]
  exact scan_opfree e.data he

theorem wf_assignedTo (e : String) (he : ∀ c ∈ e.data, isOpChar c = false) :
    WellFormedQuery ("assigned to: " ++ e) := by
  unfold WellFormedQuery
  rw [String.data_append, wfScanF_append,
    show wfScanF ("assigned to: ".data) (some true) = some false from by decide]
  exact scan_opfree e.data he

theorem ruf_wf_or_empty (rid email : Option String) (mode : Option RUFiltering)
    (hem : ∀ e, email = some e → ∀ c ∈ e.data, isOpChar c = false) :
    buildResponsibleUserQueryFilter rid email mode = ""
      ∨ WellFormedQuery (buildResponsibleUserQueryFilter rid email mode) := by
  have hmode : ∀ (m : Option RUFiltering),
      (match m.getD RUFiltering.unassignedOrMe with
        | RUFiltering.assigned => ("assigned" : String)
        | RUFiltering.unassignedOrMe => "(!assigned | assigned to: me)"
        | RUFiltering.all => "") = "" ∨
      WellFormedQuery (match m.getD RUFiltering.unassignedOrMe with
        | RUFiltering.assigned => ("assigned" : String)
        | RUFiltering.unassignedOrMe => "(!assigned | assigned to: me)"
        | RUFiltering.all => "") := by
    intro m
    rcases m with _ | (_ | _ | _)
    · exact Or.inr (by decide)
    · exact Or.inr (by decide)
    · exact Or.inr (by decide)
    · exact Or.inl rfl
  rcases rid with _ | i <;> rcases email with _ | e
  · exact hmode mode
  · exact hmode mode
  · exact hmode mode
  · exact Or.inr (wf_assignedTo e (hem e rfl))

theorem generateLabelsFilter_scan (ls : List String) (lop : LabelsOperator) (hne : ls ≠ [])
    (hop : ∀ l ∈ ls, ∀ c ∈ l.data, isOpChar c = false) :
    wfScanF (generateLabelsFilter ls lop).data (some true) = some false := by
  cases lop
  · exact scan_join_terms " " false (by decide) ls hne hop true
  · exact scan_join_terms " | " true (by decide) ls hne hop true

theorem wf_paren_labels (ls : List String) (lop : LabelsOperator) (hne : ls ≠ [])
    (hop : ∀ l ∈ ls, ∀ c ∈ l.data, isOpChar c = false) :
    WellFormedQuery ("(" ++ generateLabelsFilter ls lop ++ ")") := by
  unfold WellFormedQuery
  rw [String.data_append, String.data_append, wfScanF_append, wfScanF_append,
    show wfScanF ("(".data) (some true) = some true from by decide,
    generateLabelsFilter_scan ls lop hne hop]
  decide

theorem labelsFilter_pos (ls : List String) (lop : LabelsOperator) (hne : ls ≠ [])
    (hop : ∀ l ∈ ls, ∀ c ∈ l.data, isOpChar c = false) :
    (generateLabelsFilter ls lop).length > 0 := by
  have h2 := generateLabelsFilter_scan ls lop hne hop
  rcases hd : (generateLabelsFilter ls lop).data with _ | ⟨c, rest⟩
  · rw [hd] at h2
    exact absurd h2 (by decide)
  · show 0 < (generateLabelsFilter ls lop).data.length
    rw [hd]
    simp

theorem paren_ne_empty (lf : String) : ("(" ++ lf ++ ")") ≠ "" := by
  intro h
  have h2 := congrArg String.data h
  rw [String.data_append, String.data_append,
    show ("(" : String).data = ['('] from rfl,
    show ("" : String).data = [] from rfl] at h2
  simp at h2

theorem dateClause_wf (args : FindTasksByDateArgs)
    (hguard : args.startDate ≠ none ∨ args.overdueOption = some OverdueOption.overdueOnly)
    (hvalid : ∀ s, args.startDate = some s → s ≠ "today" →
      args.overdueOption ≠ some OverdueOption.overdueOnly → ∃ v, readDate s.data = some v) :
    ∃ dc, dateClauseOpt args = some dc ∧ WellFormedQuery dc := by
  by_cases h1 : args.overdueOption = some OverdueOption.overdueOnly
  · exact ⟨"overdue", by simp [dateClauseOpt, h1], by decide⟩
  · by_cases h2 : args.startDate = some "today"
    · by_cases h3 : args.overdueOption = some OverdueOption.excludeOverdue
      · exact ⟨"today", by simp [dateClauseOpt, h1, h2, h3], by decide⟩
      · exact ⟨"(today | overdue)", by simp [dateClauseOpt, h1, h2, h3], by decide⟩
    · rcases hsd : args.startDate with _ | s
      · rcases hguard with h | h
        · exact absurd hsd h
        · exact absurd h h1
      · have hs3 : s ≠ "today" := fun hEq => h2 (by rw [hsd, hEq])
        obtain ⟨v, hv⟩ := hvalid s hsd hs3 h1
        refine ⟨"(due after: " ++ s ++ " | due: " ++ s ++ ") & due before: "
            ++ formatIsoDate (daysFromCivil v.1 v.2.1 v.2.2 + args.daysCount), ?_, ?_⟩
        · simp [dateClauseOpt, h1, h2, hsd, hs3, addDaysIso, hv]
        · exact wf_explicitDate s _ (readDate_chars hv) (formatIsoDate_not_op _)

/-- C5: for every facet combination that reaches query construction, the
filter query the builder produces is structurally well-formed: it is
non-empty, contains no empty clause (captured by the single-pass scan
predicate), no doubled ampersand or pipe operators, and no leading or
trailing operator; and the modelled appendToQuery joins non-empty clauses
with an ampersand while empty facets contribute nothing. The hypotheses
reflect the zod schema (a present startDate is a real date or "today", a
temporal filter exists) and Todoist label and email syntax (no ampersand or
pipe characters). -/
theorem buildQuery_wellFormed (args : FindTasksByDateArgs) (rid email : Option String)
    (hguard : args.startDate ≠ none ∨ args.overdueOption = some OverdueOption.overdueOnly)
    (hvalid : ∀ s, args.startDate = some s → s ≠ "today" →
      args.overdueOption ≠ some OverdueOption.overdueOnly → ∃ v, readDate s.data = some v)
    (hlab : ∀ l ∈ args.labels, ∀ c ∈ l.data, isOpChar c = false)
    (hem : ∀ e, email = some e → ∀ c ∈ e.data, isOpChar c = false) :
    (∃ q, buildQuery args rid email = some q ∧ WellFormedQuery q ∧ q ≠ ""
       ∧ (∀ x y, q.data ≠ x ++ '&' :: '&' :: y)
       ∧ (∀ x y, q.data ≠ x ++ '|' :: '|' :: y)
       ∧ (∀ c y, q.data = c :: y → isOpChar c = false)
       ∧ (∀ x c, q.data = x ++ [c] → isOpChar c = false))
    ∧ (∀ q', appendToQuery q' "" = q')
    ∧ (∀ c', appendToQuery "" c' = c') := by
  refine ⟨?_, fun q' => by unfold appendToQuery; split <;> simp_all,
    fun c' => by unfold appendToQuery; simp⟩
  obtain ⟨dc, hdc, hwfdc⟩ := dateClause_wf args hguard hvalid
  set lf := generateLabelsFilter args.labels args.labelsOperator with hlf
  have hq1 : ∃ q1, (if lf.length > 0 then appendToQuery dc ("(" ++ lf ++ ")") else dc) = q1
      ∧ WellFormedQuery q1 := by
    by_cases hl : args.labels = []
    · have hempty : lf = "" := by
        rw [hlf, hl]; cases args.labelsOperator <;> rfl
      rw [hempty]
      exact ⟨dc, by simp, hwfdc⟩
    · have hwrap : WellFormedQuery ("(" ++ lf ++ ")") := wf_paren_labels args.labels _ hl hlab
      have hpos : lf.length > 0 := labelsFilter_pos args.labels _ hl hlab
      rw [if_pos hpos]
      exact ⟨_, rfl, appendToQuery_wf dc _ hwfdc (Or.inr hwrap)⟩
  obtain ⟨q1, hq1eq, hwfq1⟩ := hq1
  have hruf := ruf_wf_or_empty rid email args.responsibleUserFiltering hem
  have hq2wf : WellFormedQuery (appendToQuery q1
      (buildResponsibleUserQueryFilter rid email args.responsibleUserFiltering)) :=
    appendToQuery_wf _ _ hwfq1 hruf
  refine ⟨_, ?_, hq2wf, wf_ne_empty hq2wf,
    fun x y => wf_no_doubled hq2wf '&' (by decide) x y,
    fun x y => wf_no_doubled hq2wf '|' (by decide) x y,
    wf_head hq2wf, wf_last hq2wf⟩
  unfold buildQuery
  rw [hdc]
  simp only [Option.map_some', ← hlf, hq1eq]

/-- C5 witness: the builder evaluated at a full facet combination (explicit
date, two or-combined labels, resolved assignee email) yields a
well-formed query. -/
theorem buildQuery_wellFormed_witness :
    ∃ q, buildQuery exampleArgsLabels (some "1") (some "john@x.com") = some q
      ∧ WellFormedQuery q := by
  obtain ⟨⟨q, hq, hwf, _⟩, _, _⟩ := buildQuery_wellFormed exampleArgsLabels
    (some "1") (some "john@x.com")
    (Or.inl (by decide))
    (by
      intro s hs h2 h3
      injection hs with h
      subst h
      exact ⟨(2025, 1, 15), by decide⟩)
    (by decide)
    (by
      intro e he
      injection he with h
      subst h
      decide)
  exact ⟨q, hq, hwf⟩

/-- C6: for a non-empty label set the label clause joins at-sign label
terms with a pipe for the or operator and as consecutive terms for the and
operator, and the clause is appended to the (always non-empty) date clause
wrapped in parentheses. -/
theorem labelsClause_spec (args : FindTasksByDateArgs) (rid email : Option String)
    (hl : args.labels ≠ [])
    (hguard : args.startDate ≠ none ∨ args.overdueOption = some OverdueOption.overdueOnly)
    (hvalid : ∀ s, args.startDate = some s → s ≠ "today" →
      args.overdueOption ≠ some OverdueOption.overdueOnly → ∃ v, readDate s.data = some v)
    (hlab : ∀ l ∈ args.labels, ∀ c ∈ l.data, isOpChar c = false) :
    ∃ dc, dateClauseOpt args = some dc ∧ dc ≠ ""
      ∧ buildQuery args rid email =
          some (appendToQuery
            (dc ++ " & " ++ "(" ++ generateLabelsFilter args.labels args.labelsOperator ++ ")")
            (buildResponsibleUserQueryFilter rid email args.responsibleUserFiltering))
      ∧ generateLabelsFilter args.labels LabelsOperator.lOr
          = joinSep " | " (args.labels.map fun l => "@" ++ l)
      ∧ generateLabelsFilter args.labels LabelsOperator.lAnd
          = joinSep " " (args.labels.map fun l => "@" ++ l) := by
  obtain ⟨dc, hdc, hwfdc⟩ := dateClause_wf args hguard hvalid
  refine ⟨dc, hdc, wf_ne_empty hwfdc, ?_, rfl, rfl⟩
  unfold buildQuery
  rw [hdc]
  simp only [Option.map_some']
  have hpos := labelsFilter_pos args.labels args.labelsOperator hl hlab
  rw [if_pos hpos,
    appendToQuery_eq_join dc _ (wf_ne_empty hwfdc)
      (paren_ne_empty (generateLabelsFilter args.labels args.labelsOperator))]
  congr 2
  apply strExt
  simp [String.data_append, List.append_assoc]

/-- C6 witness: the builder evaluated at the explicit-date arguments with
labels work and home under the or operator. -/
theorem labelsClause_spec_witness :
    ∃ dc, dateClauseOpt exampleArgsLabels = some dc ∧ dc ≠ ""
      ∧ buildQuery exampleArgsLabels (some "1") (some "john@x.com") =
          some (appendToQuery
            (dc ++ " & " ++ "("
              ++ generateLabelsFilter exampleArgsLabels.labels exampleArgsLabels.labelsOperator
              ++ ")")
            (buildResponsibleUserQueryFilter (some "1") (some "john@x.com")
              exampleArgsLabels.responsibleUserFiltering))
      ∧ generateLabelsFilter exampleArgsLabels.labels LabelsOperator.lOr
          = joinSep " | " (exampleArgsLabels.labels.map fun l => "@" ++ l)
      ∧ generateLabelsFilter exampleArgsLabels.labels LabelsOperator.lAnd
          = joinSep " " (exampleArgsLabels.labels.map fun l => "@" ++ l) :=
  labelsClause_spec exampleArgsLabels (some "1") (some "john@x.com") (by decide)
    (Or.inl (by decide))
    (by
      intro s hs h2 h3
      injection hs with h
      subst h
      exact ⟨(2025, 1, 15), by decide⟩)
    (by decide)

end Todoist
